import Mathlib

/-!
# Accounting ledger front end: `src/main/resources/public/app.js`

A shallow embedding of the browser script that loads transaction records and
renders them as a table with KPI cards.

* JavaScript strings are lists of Unicode characters (well-formed text); where
  the script depends on `String.prototype.length`, the length is counted in
  UTF-16 code units (`unitLength`).
* Numbers are IEEE-754 doubles: a finite one is an integer multiple of `2^-1074`,
  and addition rounds the exact sum to the nearest double, ties to even
  (`JsNumber.add`).
* The page (module variable `viewData` plus the DOM elements the script writes)
  is an explicit record `Page`, passed through every operation.
* The host supplies number formatting (`toLocaleString`) and the answer of the
  network to a `fetch`; both are fields of `Host`.
-/

set_option autoImplicit false

namespace Ledger

/-! ## Strings -/

/-- A JavaScript string: the sequence of its characters. -/
abbrev JsString := List Char

/-- A string literal of the script. -/
def lit (s : String) : JsString := s.toList

/-- UTF-16 code units taken by one character. -/
def unitSize (c : Char) : Nat := if c.toNat < 65536 then 1 else 2

/-- The `length` property of a string: its number of UTF-16 code units. -/
def unitLength (s : JsString) : Nat := (s.map unitSize).sum

/-- The built-in `s.padStart(targetLength, padString)` for a pad string of one code unit `pad`
(app.js pads with `"0"` only): when `s` is shorter than `targetLength` code units,
the missing ones are put in front. -/
def padStart (s : JsString) (targetLength : Nat) (pad : Char) : JsString :=
  List.replicate (targetLength - unitLength s) pad ++ s

/-- The built-in `s.replaceAll(pattern, replacement)` for a search string of one character
`pattern` (the only way app.js calls it). -/
def replaceAll (s : JsString) (pattern : Char) (replacement : JsString) : JsString :=
  match s with
  | [] => []
  | c :: rest =>
    if c = pattern then replacement ++ replaceAll rest pattern replacement
    else c :: replaceAll rest pattern replacement

/-- The built-in `s.includes(pattern)`: `pattern` occurs in `s` as a contiguous substring. -/
def includes (s pattern : JsString) : Bool :=
  pattern.isPrefixOf s ||
    match s with
    | [] => false
    | _ :: rest => includes rest pattern

/-- The built-in `String(n)` for a non-negative integer `n` (an HTTP status, an array length). -/
def numberToString (n : Nat) : JsString := Nat.toDigits 10 n

/-- White space and line terminators, as removed by `trim` and skipped by `parseInt`. -/
def isWhiteSpace (c : Char) : Bool :=
  let n := c.toNat
  n = 0x09 || n = 0x0A || n = 0x0B || n = 0x0C || n = 0x0D || n = 0x20 || n = 0xA0 ||
  n = 0x1680 || (0x2000 ≤ n && n ≤ 0x200A) || n = 0x2028 || n = 0x2029 || n = 0x202F ||
  n = 0x205F || n = 0x3000 || n = 0xFEFF

/-- The built-in `s.trim()`. -/
def trim (s : JsString) : JsString :=
  ((s.dropWhile isWhiteSpace).reverse.dropWhile isWhiteSpace).reverse

/-- Value of `c` as a digit in radix `radix`, if it is one. -/
def digitValue (radix : Nat) (c : Char) : Option Nat :=
  let v : Option Nat :=
    if c.isDigit then some (c.toNat - 48)
    else if c.isLower then some (c.toNat - 97 + 10)
    else if c.isUpper then some (c.toNat - 65 + 10)
    else none
  v.bind fun d => if d < radix then some d else none

/-- The built-in `parseInt(input)` without a radix argument; `none` stands for `NaN`.
Leading white space is skipped, then an optional sign, then an optional `0x`/`0X`
(which selects radix 16), then the longest run of digits is read; what follows
the digits is ignored, and no digit at all gives `NaN`. The rounding of a long
numeral to a double is not modelled (app.js only asks whether the result is `NaN`). -/
def parseInt (input : JsString) : Option Int :=
  let s := input.dropWhile isWhiteSpace
  let signed : Int × JsString :=
    match s with
    | '-' :: r => (-1, r)
    | '+' :: r => (1, r)
    | _ => (1, s)
  let based : Nat × JsString :=
    match signed.2 with
    | '0' :: 'x' :: r => (16, r)
    | '0' :: 'X' :: r => (16, r)
    | r => (10, r)
  let z := based.2.takeWhile fun c => (digitValue based.1 c).isSome
  if z.isEmpty then none
  else some (signed.1 * (z.foldl (fun acc c => acc * based.1 + (digitValue based.1 c).getD 0) 0 : Nat))

/-- The built-in `isNaN(x)` for a `parseInt` result. -/
def isNaN (x : Option Int) : Bool := x.isNone

/-- Characters `encodeURIComponent` leaves as they are. -/
def uriUnreserved (c : Char) : Bool :=
  c.isAlphanum || c = '-' || c = '_' || c = '.' || c = '!' || c = '~' || c = '*' ||
  c = Char.ofNat 39 || c = '(' || c = ')'

/-- UTF-8 octets of the code point `v`. -/
def utf8Octets (v : Nat) : List Nat :=
  if v < 0x80 then [v]
  else if v < 0x800 then [0xC0 + v / 64, 0x80 + v % 64]
  else if v < 0x10000 then [0xE0 + v / 4096, 0x80 + v / 64 % 64, 0x80 + v % 64]
  else [0xF0 + v / 262144, 0x80 + v / 4096 % 64, 0x80 + v / 64 % 64, 0x80 + v % 64]

/-- Upper-case hexadecimal digit. -/
def hexDigit (n : Nat) : Char := (lit "0123456789ABCDEF").getD n '0'

/-- One octet as `%XX`. -/
def percentOctet (b : Nat) : JsString := ['%', hexDigit (b / 16), hexDigit (b % 16)]

/-- The built-in `encodeURIComponent(s)` on well-formed text: unreserved characters are kept,
every other character becomes the `%XX` escapes of its UTF-8 octets. -/
def encodeURIComponent (s : JsString) : JsString :=
  s.flatMap fun c =>
    if uriUnreserved c then [c] else (utf8Octets c.toNat).flatMap percentOctet

/-- Truthiness of a value that is a string or `undefined`/`null`: only a
non-empty string is truthy. -/
def truthy (v : Option JsString) : Bool :=
  match v with
  | none => false
  | some s => !s.isEmpty

/-- The expression `v || ""` for a string-or-absent value. -/
def orEmpty (v : Option JsString) : JsString := v.getD []

/-! ## Numbers -/

/-- A JavaScript number (IEEE-754 binary64). `finite n` is the value `n * 2^-1074`:
every finite double is such a multiple (`-0` is not told apart from `0`, which
`==`, `<` and `>` do not either). -/
inductive JsNumber where
  | finite (n : Int)
  | posInf
  | negInf
  | nan
deriving DecidableEq

/-- Number of binary digits of `a` (`fuel` bounds the recursion; `bitLength a a` is
the number of digits of `a`). -/
def bitLength (fuel a : Nat) : Nat :=
  match fuel with
  | 0 => 0
  | f + 1 => if a = 0 then 0 else bitLength f (a / 2) + 1

/-- Rounding of a magnitude `a` (in units of `2^-1074`) to one with at most 53
significant binary digits: to the nearest, and of two equally near ones to the one
whose last kept digit is even. Below `2^53` units (subnormals and the first
binade) every magnitude is kept. -/
def roundMagnitude (a : Nat) : Nat :=
  if a < 2 ^ 53 then a
  else
    let k := bitLength a a - 53
    let m := a / 2 ^ k
    let r := a % 2 ^ k
    let half := 2 ^ (k - 1)
    let up := decide (half < r) || (decide (r = half) && decide (m % 2 = 1))
    (if up then m + 1 else m) * 2 ^ k

/-- The double nearest to the exact value `x * 2^-1074`; a rounded magnitude of
`2^1024` or more (`2^2098` units) overflows to an infinity. -/
def JsNumber.ofExact (x : Int) : JsNumber :=
  let a := roundMagnitude x.natAbs
  if 2 ^ 2098 ≤ a then (if x < 0 then .negInf else .posInf)
  else .finite (if x < 0 then -(a : Int) else (a : Int))

/-- The operator `a + b` on numbers. -/
def JsNumber.add : JsNumber → JsNumber → JsNumber
  | .nan, _ => .nan
  | _, .nan => .nan
  | .posInf, .negInf => .nan
  | .negInf, .posInf => .nan
  | .posInf, _ => .posInf
  | _, .posInf => .posInf
  | .negInf, _ => .negInf
  | _, .negInf => .negInf
  | .finite a, .finite b => JsNumber.ofExact (a + b)

/-- The operator `a < b` on numbers (`a > b` is `b < a`); false when one is `NaN`. -/
def JsNumber.lt : JsNumber → JsNumber → Bool
  | .nan, _ => false
  | _, .nan => false
  | .finite a, .finite b => decide (a < b)
  | .negInf, .negInf => false
  | .negInf, _ => true
  | _, .negInf => false
  | .posInf, _ => false
  | _, .posInf => true

instance : OfNat JsNumber 0 := ⟨.finite 0⟩

instance : Add JsNumber := ⟨JsNumber.add⟩

instance : LT JsNumber := ⟨fun a b => JsNumber.lt a b = true⟩

instance (a b : JsNumber) : Decidable (a < b) :=
  inferInstanceAs (Decidable (JsNumber.lt a b = true))

/-- The whole number `v` as a number (exactly representable when `|v| ≤ 2^53`). -/
def JsNumber.ofInt (v : Int) : JsNumber := .finite (v * ((2 ^ 1074 : Nat) : Int))

/-! ## Data model -/

/-- One transaction record `{date,time,description,vendor,amount,type}`. The four
fields the script guards with `||` or `??` may be absent (`none`). -/
structure Transaction where
  date : Option JsString
  time : Option JsString
  description : Option JsString
  vendor : Option JsString
  amount : JsNumber
  type : JsString
deriving DecidableEq

/-- The numbers shown by the KPI cards: `balance`, `deposits` and `payments` are the
values handed to `fmtMoney` for `#kpi-balance`, `#kpi-deposits`, `#kpi-payments`;
`count` is the number in `#kpi-count`; `depositsSub` and `paymentsSub` are the
counts in the two subtexts. -/
structure Kpis where
  balance : JsNumber
  deposits : JsNumber
  payments : JsNumber
  count : Nat
  depositsSub : Nat
  paymentsSub : Nat
deriving DecidableEq

/-- The state the script reads and writes: `viewData`, the DOM elements of the
markup contract (taken to be present), and a record of the effects on the
outside (`requests`: the URLs passed to `fetch`, oldest first; `logged`: the
messages of the errors passed to `console.error`). `endpoint` is
`$("#btn-user-search")?.dataset.endpoint`. -/
structure Page where
  viewData : List Transaction
  rows : JsString
  emptyHidden : Bool
  kpis : Kpis
  toast : Option JsString
  endpoint : Option JsString
  requests : List JsString
  logged : List JsString
deriving DecidableEq

/-- What `await res.json()` followed by `data.map(...)` does with the body of a
response: it yields the array of records, or throws an error with a message. -/
inductive Body where
  | json (data : List Transaction)
  | invalid (message : JsString)
deriving DecidableEq

/-- What `await fetch(url)` does: it resolves with a response of some status, or
rejects (network failure) with an error message. -/
inductive FetchOutcome where
  | response (status : Nat) (body : Body)
  | failure (message : JsString)
deriving DecidableEq

/-- The host: number formatting of `fmtMoney` (`Number(n).toLocaleString` with two
fraction digits) and the network. -/
structure Host where
  fmtMoney : JsNumber → JsString
  fetch : JsString → FetchOutcome

/-! ## Utilities -/

/-- The function `escapeHtml(s)`. -/
def escapeHtml (s : JsString) : JsString :=
  replaceAll
    (replaceAll
      (replaceAll
        (replaceAll
          (replaceAll s '&' (lit "&amp;"))
          '<' (lit "&lt;"))
        '>' (lit "&gt;"))
      '"' (lit "&quot;"))
    (Char.ofNat 39) (lit "&#39;")

/-- The function `toast(msg)`: the message becomes the text of `#toast`. -/
def toast (p : Page) (msg : JsString) : Page := { p with toast := some msg }

/-- The `sum` helper of `renderKpis`: `arr.reduce((a, b) => a + b, 0)`. -/
def sum (arr : List JsNumber) : JsNumber := arr.foldl (fun a b => a + b) 0

/-! ## Rendering -/

/-- The row template of `renderTable` for one record. -/
def rowHtml (fmtMoney : JsNumber → JsString) (t : Transaction) : JsString :=
  let cls := if t.amount < 0 then lit "neg" else lit "pos"
  let badge := if t.type = lit "credit" then lit "badge credit" else lit "badge debit"
  lit "<tr>\n      <td>" ++ orEmpty t.date ++
  lit "</td>\n      <td>" ++ escapeHtml (orEmpty t.description) ++
  lit "</td>\n      <td>" ++ escapeHtml (orEmpty t.vendor) ++
  lit "</td>\n      <td class=\"num " ++ cls ++ lit "\">" ++ fmtMoney t.amount ++
  lit "</td>\n      <td><span class=\"" ++ badge ++ lit "\">" ++ t.type ++
  lit "</span></td>\n      <td>" ++ orEmpty t.time ++
  lit "</td>\n    </tr>"

/-- The array built by `viewData.map((t) => ...)` in `renderTable`, before `.join("")`. -/
def tableRows (fmtMoney : JsNumber → JsString) (viewData : List Transaction) : List JsString :=
  viewData.map (rowHtml fmtMoney)

/-- The function `renderTable()`. -/
def renderTable (h : Host) (p : Page) : Page :=
  let p := { p with rows := [] }
  if p.viewData.length = 0 then
    { p with emptyHidden := false }
  else
    let p := { p with emptyHidden := true }
    { p with rows := (tableRows h.fmtMoney p.viewData).flatten }

/-- The function `renderKpis()`. -/
def renderKpis (p : Page) : Page :=
  let deposits := (p.viewData.filter fun t => t.amount > 0).map fun t => t.amount
  let payments := (p.viewData.filter fun t => t.amount < 0).map fun t => t.amount
  let balance := sum (p.viewData.map fun t => t.amount)
  { p with
    kpis :=
      { balance := balance
        deposits := sum deposits
        payments := sum payments
        count := p.viewData.length
        depositsSub := deposits.length
        paymentsSub := payments.length } }

/-! ## Loading -/

/-- The normalisation of one record in `load`: `{...d, time: (d.time ?? "").padStart(8, "0")}`. -/
def normalizeTime (d : Transaction) : Transaction :=
  { d with time := some (padStart (d.time.getD []) 8 '0') }

/-- The property `res.ok`: the status is in the range 200..299. -/
def responseOk (status : Nat) : Bool := 200 ≤ status && status ≤ 299

/-- The `catch (e)` block of `load`, for an error with message `message`. -/
def loadCatch (h : Host) (p : Page) (message : JsString) : Page :=
  if includes message (lit "HTTP 404") then
    let p := toast p (lit "No transactions found for that User ID.")
    let p := { p with viewData := [] }
    let p := renderTable h p
    renderKpis p
  else
    let p := toast p (lit "Load failed: " ++ message)
    { p with logged := p.logged ++ [message] }

/-- The function `load(url, showToast)`. -/
def load (h : Host) (p : Page) (url : JsString) (showToast : Bool) : Page :=
  let p := { p with requests := p.requests ++ [url] }
  match h.fetch url with
  | .failure message => loadCatch h p message
  | .response status body =>
    if !responseOk status then loadCatch h p (lit "HTTP " ++ numberToString status)
    else
      match body with
      | .invalid message => loadCatch h p message
      | .json data =>
        let p := { p with viewData := data.map normalizeTime }
        let p := renderTable h p
        let p := renderKpis p
        if showToast then
          toast p (lit "Loaded " ++ numberToString p.viewData.length ++ lit " transactions")
        else p

/-- The function `loadRange(start, end)`; the second argument is named `endDate` here. An absent
value (`undefined`) is `none`. -/
def loadRange (h : Host) (p : Page) (start endDate : Option JsString) : Page :=
  if !truthy start || !truthy endDate then
    toast p (lit "Pick both start and end dates")
  else
    let url := lit "/api/transactions/range?start=" ++ encodeURIComponent (orEmpty start) ++
      lit "&end=" ++ encodeURIComponent (orEmpty endDate)
    load h p url true

/-- The function `loadByUserId(userId)`, for the string value of the user-ID input. -/
def loadByUserId (h : Host) (p : Page) (userId : JsString) : Page :=
  let trimmedId := if truthy (some userId) then trim userId else []
  if !truthy (some trimmedId) || isNaN (parseInt trimmedId) then
    toast p (lit "Please enter a valid User ID (number).")
  else
    let baseUrl := p.endpoint
    if !truthy baseUrl then
      toast p (lit "Configuration error: Missing endpoint data attribute.")
    else
      let url := orEmpty baseUrl ++ lit "/" ++ encodeURIComponent trimmedId
      load h p url true

/-- A deposit of 12.50, used as a concrete record. -/
def sampleDeposit : Transaction :=
  { date := some (lit "2024-03-01"), time := some (lit "09:15:00"),
    description := some (lit "Invoice 7"), vendor := some (lit "Acme"),
    amount := .finite (25 * ((2 ^ 1073 : Nat) : Int)), type := lit "credit" }

/-- A payment of 7. -/
def samplePayment : Transaction :=
  { date := some (lit "2024-03-02"), time := some (lit "1:2:3"),
    description := some (lit "Paper & ink"), vendor := none,
    amount := JsNumber.ofInt (-7), type := lit "debit" }

/-- A record whose amount is exactly 0. -/
def sampleZero : Transaction :=
  { date := none, time := none, description := none, vendor := none,
    amount := 0, type := lit "debit" }

/-- A page before anything is loaded. -/
def emptyPage : Page :=
  { viewData := [], rows := [], emptyHidden := false,
    kpis := { balance := 0, deposits := 0, payments := 0, count := 0,
              depositsSub := 0, paymentsSub := 0 },
    toast := none, endpoint := some (lit "/api/transactions/user"),
    requests := [], logged := [] }

/-- A host whose network answers every request with status 200 and two records,
and whose formatter prints every amount as `0.00`. -/
def sampleHost : Host :=
  { fmtMoney := fun _ => lit "0.00",
    fetch := fun _ => .response 200 (.json [sampleDeposit, samplePayment]) }

/-- A record as the server may return it, whose `type` holds markup. -/
def markupRecord : Transaction :=
  { date := some (lit "2024-03-03"), time := some (lit "10:00:00"),
    description := some (lit "<script>"), vendor := some (lit "A \"B\""),
    amount := JsNumber.ofInt 5, type := lit "<img src=x onerror=alert(1)>" }

/-- A host whose network answers with status 200 and a body that is not JSON: the
text `HTTP 404 Not Found`, which the parse error quotes in its message. -/
def notJsonHost : Host :=
  { fmtMoney := fun _ => lit "0.00",
    fetch := fun _ =>
      .response 200 (.invalid (lit "Unexpected token 'H', \"HTTP 404 N\"... is not valid JSON")) }

/-- A host whose network answers every request with status 500. -/
def serverErrorHost : Host :=
  { fmtMoney := fun _ => lit "0.00",
    fetch := fun _ => .response 500 (.invalid (lit "Unexpected end of JSON input")) }

/-- A page that shows two records. -/
def loadedPage : Page := { emptyPage with viewData := [sampleDeposit, samplePayment] }

/-- A deposit of 1e16. -/
def bigDeposit : Transaction :=
  { date := some (lit "2024-03-04"), time := some (lit "08:00:00"),
    description := some (lit "Transfer in"), vendor := some (lit "Bank"),
    amount := JsNumber.ofInt (10 ^ 16), type := lit "credit" }

/-- A payment of 1e16. -/
def bigPayment : Transaction :=
  { date := some (lit "2024-03-04"), time := some (lit "08:05:00"),
    description := some (lit "Transfer out"), vendor := some (lit "Bank"),
    amount := JsNumber.ofInt (-(10 ^ 16)), type := lit "debit" }

/-- A deposit of 1. -/
def unitDeposit : Transaction :=
  { date := some (lit "2024-03-04"), time := some (lit "08:10:00"),
    description := some (lit "Interest"), vendor := some (lit "Bank"),
    amount := JsNumber.ofInt 1, type := lit "credit" }

/-- A view state of whole amounts: 100, -30, 0 and 7. -/
def wholeView : List Transaction :=
  [{ sampleZero with amount := JsNumber.ofInt 100 },
   { sampleZero with amount := JsNumber.ofInt (-30) },
   { sampleZero with amount := JsNumber.ofInt 0 },
   { sampleZero with amount := JsNumber.ofInt 7 }]

/-- A record as the server may return it, whose `type` closes the row and opens
another one. -/
def splitRecord : Transaction :=
  { date := some (lit "2024-03-05"), time := some (lit "11:00:00"),
    description := some (lit "Coffee"), vendor := some (lit "Cafe"),
    amount := JsNumber.ofInt (-4), type := lit "</span></td></tr><tr><td>x" }

/-! ## Reading escaped text back -/

/-- The five entities written by `escapeHtml`, each with the character it stands for. -/
def entities : List (JsString × Char) :=
  [(lit "&amp;", '&'), (lit "&lt;", '<'), (lit "&gt;", '>'), (lit "&quot;", '"'),
   (lit "&#39;", Char.ofNat 39)]

/-- The entity of `entities` that `s` starts with, if any. -/
def entityAt (s : JsString) : Option (JsString × Char) :=
  entities.find? fun e => e.1.isPrefixOf s

/-- Decoding of the five entities, left to right; `skip` is the number of
characters still to pass over because they belong to an entity already decoded. -/
def decodeFrom (skip : Nat) (s : JsString) : JsString :=
  match s with
  | [] => []
  | c :: rest =>
    match skip with
    | k + 1 => decodeFrom k rest
    | 0 =>
      match entityAt (c :: rest) with
      | some e => e.2 :: decodeFrom (e.1.length - 1) rest
      | none => c :: decodeFrom 0 rest

/-- Decoding of the five entities `&amp; &lt; &gt; &quot; &#39;` in a text (what
an HTML parser shows for text that holds no other markup). -/
def decodeEntities (s : JsString) : JsString := decodeFrom 0 s

/-- What `escapeHtml` writes for one character. -/
def escapeChar (c : Char) : JsString :=
  if c = '&' then lit "&amp;"
  else if c = '<' then lit "&lt;"
  else if c = '>' then lit "&gt;"
  else if c = '"' then lit "&quot;"
  else if c = Char.ofNat 39 then lit "&#39;"
  else [c]

/-- Number of positions of `s` at which `pattern` starts. -/
def occurrences (s pattern : JsString) : Nat :=
  (if pattern.isPrefixOf s then 1 else 0) +
    match s with
    | [] => 0
    | _ :: rest => occurrences rest pattern


/-! ## Numbers: exactness of whole-number sums -/

theorem unit_pos : (0 : Int) < ((2 ^ 1074 : Nat) : Int) := by positivity

theorem ofInt_zero : JsNumber.ofInt 0 = 0 := by
  show JsNumber.finite (0 * ((2 ^ 1074 : Nat) : Int)) = JsNumber.finite 0
  rw [Int.zero_mul]

theorem ofInt_lt_zero (v : Int) : JsNumber.ofInt v < 0 ↔ v < 0 := by
  show JsNumber.lt (.finite (v * ((2 ^ 1074 : Nat) : Int))) (.finite 0) = true ↔ v < 0
  simp only [JsNumber.lt, decide_eq_true_eq]
  constructor
  · intro h
    by_contra hv
    have : 0 ≤ v * ((2 ^ 1074 : Nat) : Int) := Int.mul_nonneg (not_lt.mp hv) unit_pos.le
    omega
  · intro h
    exact Int.mul_neg_of_neg_of_pos h unit_pos

theorem zero_lt_ofInt (v : Int) : 0 < JsNumber.ofInt v ↔ 0 < v := by
  show JsNumber.lt (.finite 0) (.finite (v * ((2 ^ 1074 : Nat) : Int))) = true ↔ 0 < v
  simp only [JsNumber.lt, decide_eq_true_eq]
  constructor
  · intro h
    by_contra hv
    have : v * ((2 ^ 1074 : Nat) : Int) ≤ 0 :=
      Int.mul_nonpos_of_nonpos_of_nonneg (not_lt.mp hv) unit_pos.le
    omega
  · intro h
    exact Int.mul_pos h unit_pos

theorem bitLength_le (fuel : Nat) : ∀ a n : Nat, a < 2 ^ n → bitLength fuel a ≤ n := by
  induction fuel with
  | zero => intro a n _; simp [bitLength]
  | succ f ih =>
    intro a n h
    unfold bitLength
    split
    · exact Nat.zero_le n
    · rename_i ha
      cases n with
      | zero => simp at h; exact absurd h ha
      | succ n =>
        have h2 : a / 2 < 2 ^ n := by
          rw [Nat.div_lt_iff_lt_mul (by norm_num)]
          rw [pow_succ] at h
          exact h
        have := ih (a / 2) n h2
        omega

theorem roundMagnitude_exact (w : Nat) (hw : w < 2 ^ 53) :
    roundMagnitude (w * 2 ^ 1074) = w * 2 ^ 1074 := by
  unfold roundMagnitude
  split
  · rfl
  · have ha : w * 2 ^ 1074 < 2 ^ (53 + 1074) := by
      rw [pow_add]
      exact Nat.mul_lt_mul_of_pos_right hw (by positivity)
    have hk : bitLength (w * 2 ^ 1074) (w * 2 ^ 1074) - 53 ≤ 1074 := by
      have := bitLength_le (w * 2 ^ 1074) (w * 2 ^ 1074) (53 + 1074) ha
      omega
    generalize bitLength (w * 2 ^ 1074) (w * 2 ^ 1074) - 53 = k at hk
    have hdvd : 2 ^ k ∣ w * 2 ^ 1074 :=
      Dvd.dvd.mul_left (pow_dvd_pow 2 hk) w
    have hr : w * 2 ^ 1074 % 2 ^ k = 0 := Nat.mod_eq_zero_of_dvd hdvd
    have hhalf : 0 < 2 ^ (k - 1) := by positivity
    have hne : (0 : Nat) ≠ 2 ^ (k - 1) := Nat.ne_of_lt hhalf
    simp only [hr, Nat.not_lt_zero, decide_False, hne, Bool.false_and, Bool.or_self,
      Bool.false_eq_true, if_false]
    exact Nat.div_mul_cancel hdvd

set_option exponentiation.threshold 4000 in
theorem ofExact_ofInt (v : Int) (hv : v.natAbs < 2 ^ 53) :
    JsNumber.ofExact (v * ((2 ^ 1074 : Nat) : Int)) = JsNumber.ofInt v := by
  have habs : (v * ((2 ^ 1074 : Nat) : Int)).natAbs = v.natAbs * 2 ^ 1074 := by
    rw [Int.natAbs_mul, Int.natAbs_ofNat]
  have hsmall : ¬ 2 ^ 2098 ≤ v.natAbs * 2 ^ 1074 := by
    have h1 : v.natAbs * 2 ^ 1074 < 2 ^ 53 * 2 ^ 1074 :=
      Nat.mul_lt_mul_of_pos_right hv (by positivity)
    have h2 : (2 : Nat) ^ 53 * 2 ^ 1074 ≤ 2 ^ 2098 := by
      rw [← pow_add]
      exact Nat.pow_le_pow_right (Nat.succ_pos 1) (by decide)
    exact not_le.mpr (lt_of_lt_of_le h1 h2)
  unfold JsNumber.ofExact JsNumber.ofInt
  simp only [habs, roundMagnitude_exact v.natAbs hv, hsmall, if_false]
  congr 1
  split
  · rename_i hneg
    have hvneg : v < 0 := by
      by_contra hc
      have : 0 ≤ v * ((2 ^ 1074 : Nat) : Int) := Int.mul_nonneg (not_lt.mp hc) unit_pos.le
      omega
    push_cast
    rw [abs_of_neg hvneg]
    ring
  · rename_i hnn
    have hvnn : 0 ≤ v := by
      by_contra hc
      exact hnn (Int.mul_neg_of_neg_of_pos (not_le.mp hc) unit_pos)
    push_cast
    rw [abs_of_nonneg hvnn]

theorem add_ofInt (u v : Int) (h : (u + v).natAbs < 2 ^ 53) :
    JsNumber.ofInt u + JsNumber.ofInt v = JsNumber.ofInt (u + v) := by
  show JsNumber.add (.finite (u * ((2 ^ 1074 : Nat) : Int)))
      (.finite (v * ((2 ^ 1074 : Nat) : Int))) = JsNumber.ofInt (u + v)
  simp only [JsNumber.add]
  rw [← Int.add_mul]
  exact ofExact_ofInt (u + v) h

theorem natAbs_sum_le (vs : List Int) : vs.sum.natAbs ≤ (vs.map Int.natAbs).sum := by
  induction vs with
  | nil => simp
  | cons v vs ih =>
    simp only [List.sum_cons, List.map_cons]
    have := Int.natAbs_add_le v vs.sum
    omega

theorem foldl_ofInt (vs : List Int) :
    ∀ s : Int, s.natAbs + (vs.map Int.natAbs).sum < 2 ^ 53 →
      (vs.map JsNumber.ofInt).foldl (fun a b => a + b) (JsNumber.ofInt s) =
        JsNumber.ofInt (s + vs.sum) := by
  induction vs with
  | nil => intro s _; simp
  | cons v vs ih =>
    intro s h
    simp only [List.map_cons, List.sum_cons, List.foldl_cons] at h ⊢
    have h1 : (s + v).natAbs < 2 ^ 53 := by
      have := Int.natAbs_add_le s v
      omega
    rw [add_ofInt s v h1, ih (s + v) (by
      have := Int.natAbs_add_le s v
      omega)]
    rw [Int.add_assoc]

theorem sum_ofInt (vs : List Int) (h : (vs.map Int.natAbs).sum < 2 ^ 53) :
    sum (vs.map JsNumber.ofInt) = JsNumber.ofInt vs.sum := by
  have := foldl_ofInt vs 0 (by simpa using h)
  rw [ofInt_zero] at this
  simpa [sum] using this

theorem natAbs_sum_filter_le (q : Int → Bool) (vs : List Int) :
    ((vs.filter q).map Int.natAbs).sum ≤ (vs.map Int.natAbs).sum := by
  induction vs with
  | nil => simp
  | cons v vs ih =>
    by_cases hq : q v = true
    · simp only [List.filter_cons, hq, if_true, List.map_cons, List.sum_cons]
      omega
    · simp only [List.filter_cons, hq, Bool.false_eq_true, if_false, List.map_cons, List.sum_cons]
      omega

theorem int_sum_split (vs : List Int) :
    vs.sum = (vs.filter fun v => decide (0 < v)).sum + (vs.filter fun v => decide (v < 0)).sum := by
  induction vs with
  | nil => simp
  | cons v vs ih =>
    rcases lt_trichotomy v 0 with hlt | heq | hgt
    · have h2 : ¬ 0 < v := by omega
      simp only [List.filter_cons, hlt, h2, decide_True, decide_False, if_true,
        Bool.false_eq_true, if_false, List.sum_cons]
      omega
    · subst heq
      simp only [List.filter_cons, lt_self_iff_false, decide_False, Bool.false_eq_true,
        if_false, List.sum_cons]
      omega
    · have h2 : ¬ v < 0 := by omega
      simp only [List.filter_cons, hgt, h2, decide_True, decide_False, if_true,
        Bool.false_eq_true, if_false, List.sum_cons]
      omega

/-! ## KPI cards -/

theorem deposits_ofInt (l : List Transaction) (vs : List Int)
    (hv : l.map (fun t => t.amount) = vs.map JsNumber.ofInt) :
    (l.filter fun t => t.amount > 0).map (fun t => t.amount) =
      (vs.filter fun v => decide (0 < v)).map JsNumber.ofInt := by
  have h1 : (l.filter fun t => decide (t.amount > 0)).map (fun t => t.amount) =
      (l.map fun t => t.amount).filter (fun x => decide (x > 0)) := by
    rw [List.filter_map]; rfl
  rw [h1, hv, List.filter_map]
  congr 1
  apply List.filter_congr
  intro v _
  simp only [Function.comp, gt_iff_lt, zero_lt_ofInt]

theorem payments_ofInt (l : List Transaction) (vs : List Int)
    (hv : l.map (fun t => t.amount) = vs.map JsNumber.ofInt) :
    (l.filter fun t => t.amount < 0).map (fun t => t.amount) =
      (vs.filter fun v => decide (v < 0)).map JsNumber.ofInt := by
  have h1 : (l.filter fun t => decide (t.amount < 0)).map (fun t => t.amount) =
      (l.map fun t => t.amount).filter (fun x => decide (x < 0)) := by
    rw [List.filter_map]; rfl
  rw [h1, hv, List.filter_map]
  congr 1
  apply List.filter_congr
  intro v _
  simp only [Function.comp, ofInt_lt_zero]

theorem zero_not_pos : ¬ (0 : JsNumber) > 0 := by decide

theorem zero_not_neg : ¬ (0 : JsNumber) < 0 := by decide

set_option exponentiation.threshold 4000 in
set_option maxRecDepth 10000 in
/-- C1 (as stated): for the amounts 1e16, -1e16 and 1, all exact, `renderKpis`
computes balance 1, deposits 1e16 (the sum 1e16 + 1 rounds to 1e16) and payments
-1e16, so deposits + payments is 0 and not the balance. -/
theorem renderKpis_balance_ne_deposits_add_payments :
    (renderKpis { emptyPage with viewData := [bigDeposit, bigPayment, unitDeposit] }).kpis.balance =
      JsNumber.ofInt 1 ∧
    (renderKpis { emptyPage with viewData := [bigDeposit, bigPayment, unitDeposit] }).kpis.deposits =
      JsNumber.ofInt (10 ^ 16) ∧
    (renderKpis { emptyPage with viewData := [bigDeposit, bigPayment, unitDeposit] }).kpis.payments =
      JsNumber.ofInt (-(10 ^ 16)) ∧
    (renderKpis { emptyPage with viewData := [bigDeposit, bigPayment, unitDeposit] }).kpis.balance ≠
      (renderKpis { emptyPage with viewData := [bigDeposit, bigPayment, unitDeposit] }).kpis.deposits +
      (renderKpis { emptyPage with viewData := [bigDeposit, bigPayment, unitDeposit] }).kpis.payments := by
  decide

/-- C1 (amended): for every view state `renderKpis` computes the balance as the
left-to-right double-precision sum, from 0, of all amounts, the deposits as that
of the amounts greater than 0 and the payments as that of the amounts less than 0;
the count is the length of the view state and the two sub-counts are the numbers
of amounts greater than 0 and less than 0. A record whose amount is exactly 0
changes neither total nor sub-count and adds one to the count. When the amounts
are whole numbers whose absolute values add up to less than 2^53, every addition
is exact: the three values are the exact sums and balance = deposits + payments. -/
theorem renderKpis_sums (p : Page) :
    (renderKpis p).kpis.balance =
      (p.viewData.map fun t => t.amount).foldl (fun a b => a + b) 0 ∧
    (renderKpis p).kpis.deposits =
      ((p.viewData.filter fun t => t.amount > 0).map fun t => t.amount).foldl
        (fun a b => a + b) 0 ∧
    (renderKpis p).kpis.payments =
      ((p.viewData.filter fun t => t.amount < 0).map fun t => t.amount).foldl
        (fun a b => a + b) 0 ∧
    (renderKpis p).kpis.count = p.viewData.length ∧
    (renderKpis p).kpis.depositsSub = (p.viewData.filter fun t => t.amount > 0).length ∧
    (renderKpis p).kpis.paymentsSub = (p.viewData.filter fun t => t.amount < 0).length ∧
    (∀ (pre post : List Transaction) (t : Transaction), t.amount = 0 →
      (renderKpis { p with viewData := pre ++ t :: post }).kpis.deposits =
        (renderKpis { p with viewData := pre ++ post }).kpis.deposits ∧
      (renderKpis { p with viewData := pre ++ t :: post }).kpis.payments =
        (renderKpis { p with viewData := pre ++ post }).kpis.payments ∧
      (renderKpis { p with viewData := pre ++ t :: post }).kpis.depositsSub =
        (renderKpis { p with viewData := pre ++ post }).kpis.depositsSub ∧
      (renderKpis { p with viewData := pre ++ t :: post }).kpis.paymentsSub =
        (renderKpis { p with viewData := pre ++ post }).kpis.paymentsSub ∧
      (renderKpis { p with viewData := pre ++ t :: post }).kpis.count =
        (renderKpis { p with viewData := pre ++ post }).kpis.count + 1) ∧
    (∀ vs : List Int, (p.viewData.map fun t => t.amount) = vs.map JsNumber.ofInt →
      (vs.map Int.natAbs).sum < 2 ^ 53 →
      (renderKpis p).kpis.balance = JsNumber.ofInt vs.sum ∧
      (renderKpis p).kpis.deposits = JsNumber.ofInt (vs.filter fun v => decide (0 < v)).sum ∧
      (renderKpis p).kpis.payments = JsNumber.ofInt (vs.filter fun v => decide (v < 0)).sum ∧
      (renderKpis p).kpis.balance =
        (renderKpis p).kpis.deposits + (renderKpis p).kpis.payments) := by
  refine ⟨rfl, rfl, rfl, rfl, ?_, ?_, ?_, ?_⟩
  · simp [renderKpis]
  · simp [renderKpis]
  · intro pre post t ht
    have hpos : ¬ t.amount > 0 := by rw [ht]; exact zero_not_pos
    have hneg : ¬ t.amount < 0 := by rw [ht]; exact zero_not_neg
    refine ⟨?_, ?_, ?_, ?_, ?_⟩
    · simp [renderKpis, List.filter_cons, hpos]
    · simp [renderKpis, List.filter_cons, hneg]
    · simp [renderKpis, List.filter_cons, hpos]
    · simp [renderKpis, List.filter_cons, hneg]
    · simp [renderKpis]; omega
  · intro vs hv hb
    have hbal : (renderKpis p).kpis.balance = JsNumber.ofInt vs.sum := by
      show sum (p.viewData.map fun t => t.amount) = _
      rw [hv, sum_ofInt vs hb]
    have hdep : (renderKpis p).kpis.deposits =
        JsNumber.ofInt (vs.filter fun v => decide (0 < v)).sum := by
      show sum ((p.viewData.filter fun t => t.amount > 0).map fun t => t.amount) = _
      rw [deposits_ofInt p.viewData vs hv]
      exact sum_ofInt _ (lt_of_le_of_lt (natAbs_sum_filter_le _ vs) hb)
    have hpay : (renderKpis p).kpis.payments =
        JsNumber.ofInt (vs.filter fun v => decide (v < 0)).sum := by
      show sum ((p.viewData.filter fun t => t.amount < 0).map fun t => t.amount) = _
      rw [payments_ofInt p.viewData vs hv]
      exact sum_ofInt _ (lt_of_le_of_lt (natAbs_sum_filter_le _ vs) hb)
    refine ⟨hbal, hdep, hpay, ?_⟩
    rw [hbal, hdep, hpay, add_ofInt, ← int_sum_split]
    rw [← int_sum_split]
    exact lt_of_le_of_lt (natAbs_sum_le vs) hb

/-- The amended C1 at the amounts 100, -30, 0 and 7: balance 77, deposits 107,
payments -30. -/
theorem renderKpis_sums_witness :
    (renderKpis { emptyPage with viewData := wholeView }).kpis.balance = JsNumber.ofInt 77 ∧
    (renderKpis { emptyPage with viewData := wholeView }).kpis.deposits = JsNumber.ofInt 107 ∧
    (renderKpis { emptyPage with viewData := wholeView }).kpis.payments = JsNumber.ofInt (-30) ∧
    (renderKpis { emptyPage with viewData := wholeView }).kpis.balance =
      (renderKpis { emptyPage with viewData := wholeView }).kpis.deposits +
      (renderKpis { emptyPage with viewData := wholeView }).kpis.payments :=
  (renderKpis_sums { emptyPage with viewData := wholeView }).2.2.2.2.2.2.2
    [100, -30, 0, 7] rfl (by decide)

theorem unitLength_append (a b : JsString) :
    unitLength (a ++ b) = unitLength a + unitLength b := by
  simp [unitLength]

theorem unitLength_replicate_zero (k : Nat) : unitLength (List.replicate k '0') = k := by
  induction k with
  | zero => rfl
  | succ k ih =>
    have h1 : unitSize '0' = 1 := by decide
    simp only [unitLength] at ih
    simp [unitLength, List.replicate_succ, ih, h1, Nat.add_comm]

theorem load_success (h : Host) (p : Page) (url : JsString) (showToast : Bool)
    (status : Nat) (data : List Transaction)
    (hok : responseOk status = true)
    (hfetch : h.fetch url = .response status (.json data)) :
    (load h p url showToast).viewData = data.map normalizeTime := by
  unfold load
  simp only [hfetch, hok]
  cases showToast <;> simp [renderKpis, renderTable, toast] <;> split <;> rfl

/-- C3: after a successful load of an array of records the view state is the
returned array with each record normalised (same length, same order, nothing of
the previous view state kept); a normalised record equals the returned one in
every field but `time`, and its `time` is the returned time with `k` characters
`'0'` in front, where `k = 0` when the returned time has at least 8 code units and
otherwise `k` completes it to exactly 8; an absent time becomes `"00000000"`. -/
theorem load_success_replaces_view (h : Host) (p : Page) (url : JsString) (showToast : Bool)
    (status : Nat) (data : List Transaction)
    (hok : responseOk status = true)
    (hfetch : h.fetch url = .response status (.json data)) :
    (load h p url showToast).viewData = data.map normalizeTime ∧
    (load h p url showToast).viewData.length = data.length ∧
    (∀ i : Nat, (load h p url showToast).viewData[i]? = (data[i]?).map normalizeTime) ∧
    (∀ q : Page, (load h q url showToast).viewData = (load h p url showToast).viewData) ∧
    (∀ d : Transaction,
      (normalizeTime d).date = d.date ∧ (normalizeTime d).description = d.description ∧
      (normalizeTime d).vendor = d.vendor ∧ (normalizeTime d).amount = d.amount ∧
      (normalizeTime d).type = d.type ∧
      ∃ k : Nat, (normalizeTime d).time = some (List.replicate k '0' ++ d.time.getD []) ∧
        (8 ≤ unitLength (d.time.getD []) → k = 0) ∧
        (unitLength (d.time.getD []) < 8 →
          unitLength (List.replicate k '0' ++ d.time.getD []) = 8)) ∧
    (∀ d : Transaction, d.time = none → (normalizeTime d).time = some (lit "00000000")) := by
  have hv := load_success h p url showToast status data hok hfetch
  refine ⟨hv, by simp [hv], ?_, ?_, ?_, ?_⟩
  · intro i
    simp [hv, List.getElem?_map]
  · intro q
    rw [hv, load_success h q url showToast status data hok hfetch]
  · intro d
    refine ⟨rfl, rfl, rfl, rfl, rfl, 8 - unitLength (d.time.getD []), rfl, ?_, ?_⟩
    · intro h8; omega
    · intro h8
      rw [unitLength_append, unitLength_replicate_zero]; omega
  · intro d hd
    simp [normalizeTime, hd, padStart, unitLength]
    rfl

theorem load_success_replaces_view_witness :
    responseOk 200 = true ∧
    sampleHost.fetch (lit "/api/transactions") =
      .response 200 (.json [sampleDeposit, samplePayment]) ∧
    (load sampleHost { emptyPage with viewData := [sampleZero] } (lit "/api/transactions") true).viewData =
      [sampleDeposit, { samplePayment with time := some (lit "0001:2:3") }] :=
  ⟨rfl, rfl,
    (load_success_replaces_view sampleHost { emptyPage with viewData := [sampleZero] }
      (lit "/api/transactions") true 200 [sampleDeposit, samplePayment] rfl rfl).1.trans
      (by rfl)⟩

/-- C9 (as stated): the time `"1:2:3"` is not normalised to `"000:2:3"`. -/
theorem normalizeTime_not_000 :
    (normalizeTime samplePayment).time ≠ some (lit "000:2:3") := by
  decide

/-- C9 (amended): the time `"1:2:3"` (5 code units) is normalised by putting three
`'0'` characters in front of it, which gives `"0001:2:3"`, whatever the other
fields of the record are. -/
theorem normalizeTime_short_time (d : Transaction) :
    (normalizeTime { d with time := some (lit "1:2:3") }).time = some (lit "0001:2:3") := by
  simp only [normalizeTime, Option.getD_some]
  rfl

theorem replaceAll_append (a b : JsString) (pattern : Char) (r : JsString) :
    replaceAll (a ++ b) pattern r = replaceAll a pattern r ++ replaceAll b pattern r := by
  induction a with
  | nil => simp [replaceAll]
  | cons c a ih =>
    by_cases hc : c = pattern <;> simp [replaceAll, hc, ih]

theorem replaceAll_cons (c : Char) (s : JsString) (pattern : Char) (r : JsString) :
    replaceAll (c :: s) pattern r = replaceAll [c] pattern r ++ replaceAll s pattern r :=
  replaceAll_append [c] s pattern r

theorem escapeHtml_nil : escapeHtml [] = [] := by
  simp [escapeHtml, replaceAll]

theorem escapeHtml_single (c : Char) : escapeHtml [c] = escapeChar c := by
  by_cases h1 : c = '&'
  · subst h1; decide
  by_cases h2 : c = '<'
  · subst h2; decide
  by_cases h3 : c = '>'
  · subst h3; decide
  by_cases h4 : c = '"'
  · subst h4; decide
  by_cases h5 : c = Char.ofNat 39
  · subst h5; decide
  simp [escapeHtml, escapeChar, replaceAll, h1, h2, h3, h4, h5]

theorem escapeHtml_append (a b : JsString) :
    escapeHtml (a ++ b) = escapeHtml a ++ escapeHtml b := by
  simp [escapeHtml, replaceAll_append]

theorem escapeHtml_cons (c : Char) (s : JsString) :
    escapeHtml (c :: s) = escapeChar c ++ escapeHtml s := by
  rw [← escapeHtml_single]
  exact escapeHtml_append [c] s

theorem escapeChar_cases (c : Char) :
    (c = '&' ∧ escapeChar c = lit "&amp;") ∨ (c = '<' ∧ escapeChar c = lit "&lt;") ∨
    (c = '>' ∧ escapeChar c = lit "&gt;") ∨ (c = '"' ∧ escapeChar c = lit "&quot;") ∨
    (c = Char.ofNat 39 ∧ escapeChar c = lit "&#39;") ∨
    (c ≠ '&' ∧ c ≠ '<' ∧ c ≠ '>' ∧ c ≠ '"' ∧ c ≠ Char.ofNat 39 ∧ escapeChar c = [c]) := by
  by_cases h1 : c = '&'
  · subst h1; exact Or.inl ⟨rfl, by decide⟩
  by_cases h2 : c = '<'
  · subst h2; exact Or.inr (Or.inl ⟨rfl, by decide⟩)
  by_cases h3 : c = '>'
  · subst h3; exact Or.inr (Or.inr (Or.inl ⟨rfl, by decide⟩))
  by_cases h4 : c = '"'
  · subst h4; exact Or.inr (Or.inr (Or.inr (Or.inl ⟨rfl, by decide⟩)))
  by_cases h5 : c = Char.ofNat 39
  · subst h5; exact Or.inr (Or.inr (Or.inr (Or.inr (Or.inl ⟨rfl, by decide⟩))))
  exact Or.inr (Or.inr (Or.inr (Or.inr (Or.inr
    ⟨h1, h2, h3, h4, h5, by simp [escapeChar, h1, h2, h3, h4, h5]⟩))))

theorem escapeChar_clean (c x : Char) (hx : x ∈ escapeChar c) :
    x ≠ '<' ∧ x ≠ '>' ∧ x ≠ '"' ∧ x ≠ Char.ofNat 39 := by
  rcases escapeChar_cases c with h | h | h | h | h | h
  · rw [h.2] at hx; revert x; decide
  · rw [h.2] at hx; revert x; decide
  · rw [h.2] at hx; revert x; decide
  · rw [h.2] at hx; revert x; decide
  · rw [h.2] at hx; revert x; decide
  · obtain ⟨_, h2, h3, h4, h5, h6⟩ := h
    rw [h6] at hx
    simp at hx
    subst hx
    exact ⟨h2, h3, h4, h5⟩

theorem escapeHtml_clean (s : JsString) (x : Char) (hx : x ∈ escapeHtml s) :
    x ≠ '<' ∧ x ≠ '>' ∧ x ≠ '"' ∧ x ≠ Char.ofNat 39 := by
  induction s with
  | nil => simp [escapeHtml_nil] at hx
  | cons c s ih =>
    rw [escapeHtml_cons, List.mem_append] at hx
    rcases hx with hx | hx
    · exact escapeChar_clean c x hx
    · exact ih hx

theorem escapeChar_tail_no_amp (c : Char) : '&' ∉ (escapeChar c).tail := by
  rcases escapeChar_cases c with h | h | h | h | h | h
  · rw [h.2]; decide
  · rw [h.2]; decide
  · rw [h.2]; decide
  · rw [h.2]; decide
  · rw [h.2]; decide
  · rw [h.2.2.2.2.2]; simp

theorem escapeChar_amp_entity (c : Char) (rest : JsString)
    (h : escapeChar c = '&' :: rest) : ∃ e ∈ entities, e.1 = escapeChar c := by
  rcases escapeChar_cases c with h1 | h1 | h1 | h1 | h1 | h1
  · exact ⟨(lit "&amp;", '&'), by simp [entities], h1.2.symm⟩
  · exact ⟨(lit "&lt;", '<'), by simp [entities], h1.2.symm⟩
  · exact ⟨(lit "&gt;", '>'), by simp [entities], h1.2.symm⟩
  · exact ⟨(lit "&quot;", '"'), by simp [entities], h1.2.symm⟩
  · exact ⟨(lit "&#39;", Char.ofNat 39), by simp [entities], h1.2.symm⟩
  · obtain ⟨hne, _, _, _, _, h6⟩ := h1
    rw [h6] at h
    simp at h
    exact absurd h.1 hne

theorem escapeHtml_amp (s : JsString) :
    ∀ pre post : JsString, escapeHtml s = pre ++ '&' :: post →
      ∃ e ∈ entities, e.1 <+: '&' :: post := by
  induction s with
  | nil =>
    intro pre post h
    simp [escapeHtml_nil] at h
  | cons c s ih =>
    intro pre post h
    rw [escapeHtml_cons, List.append_eq_append_iff] at h
    rcases h with ⟨a, hpre, hs⟩ | ⟨b, hc, hpost⟩
    · exact ih a post hs
    · cases b with
      | nil =>
        simp at hpost
        exact ih [] post hpost.symm
      | cons x b =>
        have hx : x = '&' := by
          have := congrArg List.head? hpost
          simp at this
          exact this.symm
        subst hx
        cases pre with
        | nil =>
          simp at hc
          obtain ⟨e, he, heq⟩ := escapeChar_amp_entity c b hc
          refine ⟨e, he, ?_⟩
          rw [hpost, heq, hc]
          exact List.prefix_append _ _
        | cons y pre =>
          exfalso
          apply escapeChar_tail_no_amp c
          rw [hc]
          simp

theorem decodeFrom_skip (pre t : JsString) :
    decodeFrom pre.length (pre ++ t) = decodeFrom 0 t := by
  induction pre with
  | nil => rfl
  | cons c pre ih => simpa [decodeFrom] using ih

theorem entityAt_of_ne (c : Char) (t : JsString) (hc : c ≠ '&') : entityAt (c :: t) = none := by
  have h : ('&' == c) = false := by simpa using fun h => hc h.symm
  have l1 : lit "&amp;" = '&' :: lit "amp;" := rfl
  have l2 : lit "&lt;" = '&' :: lit "lt;" := rfl
  have l3 : lit "&gt;" = '&' :: lit "gt;" := rfl
  have l4 : lit "&quot;" = '&' :: lit "quot;" := rfl
  have l5 : lit "&#39;" = '&' :: lit "#39;" := rfl
  simp [entityAt, entities, l1, l2, l3, l4, l5, List.isPrefixOf, h]

theorem decodeFrom_entity (e : JsString × Char) (x : Char) (xs t : JsString)
    (hx : e.1 = x :: xs) (he : entityAt (x :: (xs ++ t)) = some e) :
    decodeFrom 0 (e.1 ++ t) = e.2 :: decodeFrom 0 t := by
  rw [hx, List.cons_append, decodeFrom]
  simp only [he]
  have hl : (x :: xs).length - 1 = xs.length := by simp
  rw [hx, hl, decodeFrom_skip]

theorem decodeFrom_escapeChar (c : Char) (t : JsString) :
    decodeFrom 0 (escapeChar c ++ t) = c :: decodeFrom 0 t := by
  rcases escapeChar_cases c with h | h | h | h | h | h
  · rw [h.2, h.1]
    exact decodeFrom_entity (lit "&amp;", '&') '&' (lit "amp;") t rfl (by
      simp [entityAt, entities, lit, List.isPrefixOf])
  · rw [h.2, h.1]
    exact decodeFrom_entity (lit "&lt;", '<') '&' (lit "lt;") t rfl (by
      simp [entityAt, entities, lit, List.isPrefixOf])
  · rw [h.2, h.1]
    exact decodeFrom_entity (lit "&gt;", '>') '&' (lit "gt;") t rfl (by
      simp [entityAt, entities, lit, List.isPrefixOf])
  · rw [h.2, h.1]
    exact decodeFrom_entity (lit "&quot;", '"') '&' (lit "quot;") t rfl (by
      simp [entityAt, entities, lit, List.isPrefixOf])
  · rw [h.2, h.1]
    exact decodeFrom_entity (lit "&#39;", Char.ofNat 39) '&' (lit "#39;") t rfl (by
      simp [entityAt, entities, lit, List.isPrefixOf])
  · obtain ⟨hne, _, _, _, _, h6⟩ := h
    rw [h6]
    simp [decodeFrom, entityAt_of_ne c t hne]

theorem decodeEntities_escapeHtml (s : JsString) : decodeEntities (escapeHtml s) = s := by
  unfold decodeEntities
  induction s with
  | nil => simp [escapeHtml_nil, decodeFrom]
  | cons c s ih => rw [escapeHtml_cons, decodeFrom_escapeChar, ih]

/-- C4: for every string `s`, `escapeHtml s` holds none of the characters `<`, `>`,
`"` and apostrophe; wherever it holds an `&`, one of the five entities
`&amp; &lt; &gt; &quot; &#39;` starts there; and decoding those five entities
gives back exactly `s`. So the text `<script>` is written as `&lt;script&gt;` and
a double quote as `&quot;`. -/
theorem escapeHtml_safe (s : JsString) :
    (∀ x ∈ escapeHtml s, x ≠ '<' ∧ x ≠ '>' ∧ x ≠ '"' ∧ x ≠ Char.ofNat 39) ∧
    (∀ pre post : JsString, escapeHtml s = pre ++ '&' :: post →
      ∃ e ∈ entities, e.1 <+: '&' :: post) ∧
    decodeEntities (escapeHtml s) = s ∧
    escapeHtml (lit "<script>") = lit "&lt;script&gt;" ∧
    escapeHtml (lit "A \"B\"") = lit "A &quot;B&quot;" :=
  ⟨escapeHtml_clean s, escapeHtml_amp s, decodeEntities_escapeHtml s, by decide, by decide⟩

/-! ## Table -/

/-- What `renderTable` writes: the rows of the records, in the order of the view
state, one after the other; the placeholder is shown for the empty view state and
hidden otherwise; the view state is not touched. -/
theorem renderTable_writes (h : Host) (p : Page) :
    (renderTable h p).rows = (p.viewData.map (rowHtml h.fmtMoney)).flatten ∧
    (p.viewData = [] → (renderTable h p).rows = [] ∧ (renderTable h p).emptyHidden = false) ∧
    (p.viewData ≠ [] → (renderTable h p).emptyHidden = true) ∧
    (renderTable h p).viewData = p.viewData := by
  refine ⟨?_, ?_, ?_, ?_⟩
  · by_cases hv : p.viewData = []
    · simp [renderTable, hv]
    · simp [renderTable, hv, tableRows]
  · intro hv
    simp [renderTable, hv]
  · intro hv
    simp [renderTable, hv]
  · by_cases hv : p.viewData = [] <;> simp [renderTable, hv]

set_option exponentiation.threshold 4000 in
set_option maxRecDepth 10000 in
/-- C5 (the code at the failing input): for a view state of one record whose `type`
is `</span></td></tr><tr><td>x`, what `renderTable` writes into the table body
opens two rows: with any formatter the text `<tr>` stands in it twice, and with a
formatter that prints `0.00` it stands in it exactly twice, and `</tr>` too. -/
theorem renderTable_one_record_two_rows (h : Host) :
    ({ emptyPage with viewData := [splitRecord] } : Page).viewData.length = 1 ∧
    (∃ a b c : JsString,
      (renderTable h { emptyPage with viewData := [splitRecord] }).rows =
        a ++ lit "<tr>" ++ b ++ lit "<tr>" ++ c) ∧
    occurrences (renderTable sampleHost { emptyPage with viewData := [splitRecord] }).rows
      (lit "<tr>") = 2 ∧
    occurrences (renderTable sampleHost { emptyPage with viewData := [splitRecord] }).rows
      (lit "</tr>") = 2 := by
  refine ⟨rfl, ?_, by decide, by decide⟩
  refine ⟨[], lit "\n      <td>" ++ orEmpty splitRecord.date ++
      lit "</td>\n      <td>" ++ escapeHtml (orEmpty splitRecord.description) ++
      lit "</td>\n      <td>" ++ escapeHtml (orEmpty splitRecord.vendor) ++
      lit "</td>\n      <td class=\"num " ++ lit "neg" ++ lit "\">" ++
      h.fmtMoney splitRecord.amount ++ lit "</td>\n      <td><span class=\"" ++
      lit "badge debit" ++ lit "\">" ++ lit "</span></td></tr>",
    lit "<td>x" ++ lit "</span></td>\n      <td>" ++ orEmpty splitRecord.time ++
      lit "</td>\n    </tr>", ?_⟩
  have hamount : splitRecord.amount < 0 := by
    rw [show splitRecord.amount = JsNumber.ofInt (-4) from rfl, ofInt_lt_zero]
    omega
  have htype : splitRecord.type ≠ lit "credit" := by decide
  have e1 : lit "<tr>\n      <td>" = lit "<tr>" ++ lit "\n      <td>" := by decide
  have e2 : splitRecord.type = lit "</span></td></tr>" ++ lit "<tr>" ++ lit "<td>x" := by
    decide
  have hrows : (renderTable h { emptyPage with viewData := [splitRecord] }).rows =
      rowHtml h.fmtMoney splitRecord := by
    simp [renderTable, tableRows]
  rw [hrows]
  simp only [rowHtml, if_pos hamount, if_neg htype]
  rw [e1, e2]
  simp only [List.append_assoc, List.nil_append]

theorem count_lt_escapeHtml (s : JsString) : (escapeHtml s).count '<' = 0 := by
  rw [List.count_eq_zero]
  intro hmem
  exact (escapeHtml_clean s '<' hmem).1 rfl

theorem count_gt_escapeHtml (s : JsString) : (escapeHtml s).count '>' = 0 := by
  rw [List.count_eq_zero]
  intro hmem
  exact (escapeHtml_clean s '>' hmem).2.1 rfl

/-- The `<` of a row: the 16 of the template, and those of the date, the formatted
amount, the type and the time, which are written as they are; description and
vendor, which go through `escapeHtml`, add none. -/
theorem rowHtml_count_lt (fmtMoney : JsNumber → JsString) (t : Transaction) :
    (rowHtml fmtMoney t).count '<' =
      16 + (orEmpty t.date).count '<' + (fmtMoney t.amount).count '<' +
        t.type.count '<' + (orEmpty t.time).count '<' := by
  have e1 : (lit "<tr>\n      <td>").count '<' = 2 := by decide
  have e2 : (lit "</td>\n      <td>").count '<' = 2 := by decide
  have e3 : (lit "</td>\n      <td class=\"num ").count '<' = 2 := by decide
  have e4 : (lit "\">").count '<' = 0 := by decide
  have e5 : (lit "</td>\n      <td><span class=\"").count '<' = 3 := by decide
  have e6 : (lit "</span></td>\n      <td>").count '<' = 3 := by decide
  have e7 : (lit "</td>\n    </tr>").count '<' = 2 := by decide
  have e8 : (lit "neg").count '<' = 0 := by decide
  have e9 : (lit "pos").count '<' = 0 := by decide
  have e10 : (lit "badge credit").count '<' = 0 := by decide
  have e11 : (lit "badge debit").count '<' = 0 := by decide
  simp only [rowHtml, List.count_append, count_lt_escapeHtml, e1, e2, e3, e4, e5, e6, e7]
  split <;> split <;> simp only [e8, e9, e10, e11] <;> omega

/-- The `>` of a row, as `rowHtml_count_lt`. -/
theorem rowHtml_count_gt (fmtMoney : JsNumber → JsString) (t : Transaction) :
    (rowHtml fmtMoney t).count '>' =
      16 + (orEmpty t.date).count '>' + (fmtMoney t.amount).count '>' +
        t.type.count '>' + (orEmpty t.time).count '>' := by
  have e1 : (lit "<tr>\n      <td>").count '>' = 2 := by decide
  have e2 : (lit "</td>\n      <td>").count '>' = 2 := by decide
  have e3 : (lit "</td>\n      <td class=\"num ").count '>' = 1 := by decide
  have e4 : (lit "\">").count '>' = 1 := by decide
  have e5 : (lit "</td>\n      <td><span class=\"").count '>' = 2 := by decide
  have e6 : (lit "</span></td>\n      <td>").count '>' = 3 := by decide
  have e7 : (lit "</td>\n    </tr>").count '>' = 2 := by decide
  have e8 : (lit "neg").count '>' = 0 := by decide
  have e9 : (lit "pos").count '>' = 0 := by decide
  have e10 : (lit "badge credit").count '>' = 0 := by decide
  have e11 : (lit "badge debit").count '>' = 0 := by decide
  simp only [rowHtml, List.count_append, count_gt_escapeHtml, e1, e2, e3, e4, e5, e6, e7]
  split <;> split <;> simp only [e8, e9, e10, e11] <;> omega

/-- C10 (the code at the failing input): for a record whose `type` is
`<img src=x onerror=alert(1)>`, the row holds that text as it is, inside the
`<span>` of the badge, so the row has one `<` and one `>` more than the template
and the formatted amount account for; the description `<script>` of the same
record, which goes through `escapeHtml`, adds none. -/
theorem rowHtml_type_not_escaped (fmtMoney : JsNumber → JsString) :
    lit "<span class=\"badge debit\"><img src=x onerror=alert(1)></span>" <:+:
      rowHtml fmtMoney markupRecord ∧
    (rowHtml fmtMoney markupRecord).count '<' = 17 + (fmtMoney markupRecord.amount).count '<' ∧
    (rowHtml fmtMoney markupRecord).count '>' = 17 + (fmtMoney markupRecord.amount).count '>' := by
  refine ⟨?_, ?_, ?_⟩
  · refine ⟨lit "<tr>\n      <td>" ++ orEmpty markupRecord.date ++
        lit "</td>\n      <td>" ++ escapeHtml (orEmpty markupRecord.description) ++
        lit "</td>\n      <td>" ++ escapeHtml (orEmpty markupRecord.vendor) ++
        lit "</td>\n      <td class=\"num " ++ lit "pos" ++ lit "\">" ++
        fmtMoney markupRecord.amount ++ lit "</td>\n      <td>",
      lit "</td>\n      <td>" ++ orEmpty markupRecord.time ++ lit "</td>\n    </tr>", ?_⟩
    have hamount : ¬ markupRecord.amount < 0 := by
      rw [show markupRecord.amount = JsNumber.ofInt 5 from rfl, ofInt_lt_zero]
      omega
    have htype : markupRecord.type ≠ lit "credit" := by decide
    have e1 : lit "<span class=\"badge debit\"><img src=x onerror=alert(1)></span>" =
        lit "<span class=\"" ++ lit "badge debit" ++ lit "\">" ++ markupRecord.type ++
          lit "</span>" := by decide
    have e2 : lit "</td>\n      <td><span class=\"" =
        lit "</td>\n      <td>" ++ lit "<span class=\"" := by decide
    have e3 : lit "</span></td>\n      <td>" = lit "</span>" ++ lit "</td>\n      <td>" := by
      decide
    rw [e1]
    simp only [rowHtml, if_neg hamount, if_neg htype, e2, e3, List.append_assoc]
  · rw [rowHtml_count_lt]
    have h1 : (orEmpty markupRecord.date).count '<' = 0 := by decide
    have h2 : markupRecord.type.count '<' = 1 := by decide
    have h3 : (orEmpty markupRecord.time).count '<' = 0 := by decide
    omega
  · rw [rowHtml_count_gt]
    have h1 : (orEmpty markupRecord.date).count '>' = 0 := by decide
    have h2 : markupRecord.type.count '>' = 1 := by decide
    have h3 : (orEmpty markupRecord.time).count '>' = 0 := by decide
    omega

set_option maxRecDepth 100000 in
theorem includes_http_status :
    ∀ n < 1000, includes (lit "HTTP " ++ numberToString n) (lit "HTTP 404") = decide (n = 404) := by
  decide

theorem loadCatch_not_found (h : Host) (p : Page) (message : JsString)
    (hm : includes message (lit "HTTP 404") = true) :
    loadCatch h p message =
      { p with
        viewData := [], rows := [], emptyHidden := false,
        kpis := { balance := 0, deposits := 0, payments := 0, count := 0,
                  depositsSub := 0, paymentsSub := 0 },
        toast := some (lit "No transactions found for that User ID.") } := by
  simp [loadCatch, hm, toast, renderTable, renderKpis, sum]

theorem loadCatch_generic (h : Host) (p : Page) (message : JsString)
    (hm : includes message (lit "HTTP 404") = false) :
    loadCatch h p message =
      { p with toast := some (lit "Load failed: " ++ message), logged := p.logged ++ [message] } := by
  simp [loadCatch, hm, toast]

/-- C2 (as stated): a JSON parse failure, which is not an HTTP response with status
404, empties a non-empty view state when its message holds the text `HTTP 404`;
and after a response with status 500 on an empty view state the view state is the
empty list although the failure is not a 404. -/
theorem load_failure_not_iff_404 :
    loadedPage.viewData ≠ [] ∧
    notJsonHost.fetch (lit "/api/transactions") =
      .response 200 (.invalid (lit "Unexpected token 'H', \"HTTP 404 N\"... is not valid JSON")) ∧
    (load notJsonHost loadedPage (lit "/api/transactions") true).viewData = [] ∧
    (load notJsonHost loadedPage (lit "/api/transactions") true).toast =
      some (lit "No transactions found for that User ID.") ∧
    serverErrorHost.fetch (lit "/api/transactions") =
      .response 500 (.invalid (lit "Unexpected end of JSON input")) ∧
    (load serverErrorHost emptyPage (lit "/api/transactions") true).viewData = [] := by
  refine ⟨by simp [loadedPage], rfl, ?_, ?_, rfl, ?_⟩
  · have hm : includes (lit "Unexpected token 'H', \"HTTP 404 N\"... is not valid JSON")
        (lit "HTTP 404") = true := by decide
    simp [load, notJsonHost, responseOk, loadCatch_not_found _ _ _ hm]
  · have hm : includes (lit "Unexpected token 'H', \"HTTP 404 N\"... is not valid JSON")
        (lit "HTTP 404") = true := by decide
    simp [load, notJsonHost, responseOk, loadCatch_not_found _ _ _ hm]
  · have hm : includes (lit "HTTP " ++ numberToString 500) (lit "HTTP 404") = false := by decide
    simp [load, serverErrorHost, responseOk, loadCatch_generic _ _ _ hm, emptyPage]

/-- C2 (amended): after a response whose status (below 1000) is not in the success
range, the view state is emptied exactly when the status is 404: then the
not-found notification is shown, the table body is empty with the placeholder
shown and all KPIs are 0; for any other such status the view state, the table and
the KPIs are as before and the notification is `Load failed: HTTP <status>`. After
a network failure or a JSON parse failure whose message does not hold the text
`HTTP 404`, the view state is as before and the notification is
`Load failed: <message>`. -/
theorem load_failure (h : Host) (p : Page) (url : JsString) (showToast : Bool) :
    (∀ (status : Nat) (body : Body), h.fetch url = .response status body →
      responseOk status = false → status < 1000 →
      (status = 404 →
        (load h p url showToast).viewData = [] ∧
        (load h p url showToast).toast = some (lit "No transactions found for that User ID.") ∧
        (load h p url showToast).rows = [] ∧
        (load h p url showToast).emptyHidden = false ∧
        (load h p url showToast).kpis =
          { balance := 0, deposits := 0, payments := 0, count := 0,
            depositsSub := 0, paymentsSub := 0 }) ∧
      (status ≠ 404 →
        (load h p url showToast).viewData = p.viewData ∧
        (load h p url showToast).rows = p.rows ∧
        (load h p url showToast).kpis = p.kpis ∧
        (load h p url showToast).toast =
          some (lit "Load failed: " ++ (lit "HTTP " ++ numberToString status)))) ∧
    (∀ message : JsString, includes message (lit "HTTP 404") = false →
      (h.fetch url = .failure message ∨
        ∃ status : Nat, responseOk status = true ∧
          h.fetch url = .response status (.invalid message)) →
      (load h p url showToast).viewData = p.viewData ∧
      (load h p url showToast).rows = p.rows ∧
      (load h p url showToast).kpis = p.kpis ∧
      (load h p url showToast).toast = some (lit "Load failed: " ++ message)) := by
  constructor
  · intro status body hf hok hlt
    have hinc := includes_http_status status hlt
    have hl : load h p url showToast =
        loadCatch h { p with requests := p.requests ++ [url] }
          (lit "HTTP " ++ numberToString status) := by
      simp [load, hf, hok]
    constructor
    · intro h404
      have hm : includes (lit "HTTP " ++ numberToString status) (lit "HTTP 404") = true := by
        rw [hinc]; simpa using h404
      rw [hl, loadCatch_not_found _ _ _ hm]
      exact ⟨rfl, rfl, rfl, rfl, rfl⟩
    · intro h404
      have hm : includes (lit "HTTP " ++ numberToString status) (lit "HTTP 404") = false := by
        rw [hinc]; simpa using h404
      rw [hl, loadCatch_generic _ _ _ hm]
      exact ⟨rfl, rfl, rfl, rfl⟩
  · intro message hm hcase
    have hl : load h p url showToast =
        loadCatch h { p with requests := p.requests ++ [url] } message := by
      rcases hcase with hf | ⟨status, hok, hf⟩
      · simp [load, hf]
      · simp [load, hf, hok]
    rw [hl, loadCatch_generic _ _ _ hm]
    exact ⟨rfl, rfl, rfl, rfl⟩

theorem loadCatch_requests (h : Host) (p : Page) (message : JsString) :
    (loadCatch h p message).requests = p.requests := by
  unfold loadCatch
  split
  · simp only [renderKpis, renderTable, toast]
    split <;> rfl
  · rfl

theorem load_requests (h : Host) (p : Page) (url : JsString) (showToast : Bool) :
    (load h p url showToast).requests = p.requests ++ [url] := by
  unfold load
  split
  · simp [loadCatch_requests]
  · split
    · simp [loadCatch_requests]
    · split
      · simp [loadCatch_requests]
      · cases showToast <;> simp [renderKpis, renderTable, toast] <;> split <;> rfl

/-- C7: `loadRange` issues a request exactly when both dates are present and
non-empty. When one is absent or empty it only shows the notification
`Pick both start and end dates`: no request, the view state unchanged. When both
are present it is `load` on the URL
`/api/transactions/range?start=` + enc(start) + `&end=` + enc(end) with
enc = `encodeURIComponent`, and that URL is the one request added. -/
theorem loadRange_request (h : Host) (p : Page) (start endDate : Option JsString) :
    ((loadRange h p start endDate).requests ≠ p.requests ↔
      ∃ s e : JsString, start = some s ∧ endDate = some e ∧ s ≠ [] ∧ e ≠ []) ∧
    ((¬ ∃ s e : JsString, start = some s ∧ endDate = some e ∧ s ≠ [] ∧ e ≠ []) →
      loadRange h p start endDate = { p with toast := some (lit "Pick both start and end dates") } ∧
      (loadRange h p start endDate).requests = p.requests ∧
      (loadRange h p start endDate).viewData = p.viewData) ∧
    (∀ s e : JsString, start = some s → endDate = some e → s ≠ [] → e ≠ [] →
      loadRange h p start endDate =
        load h p (lit "/api/transactions/range?start=" ++ encodeURIComponent s ++
          lit "&end=" ++ encodeURIComponent e) true ∧
      (loadRange h p start endDate).requests =
        p.requests ++ [lit "/api/transactions/range?start=" ++ encodeURIComponent s ++
          lit "&end=" ++ encodeURIComponent e]) := by
  have hvalid : ∀ s e : JsString, start = some s → endDate = some e → s ≠ [] → e ≠ [] →
      loadRange h p start endDate =
        load h p (lit "/api/transactions/range?start=" ++ encodeURIComponent s ++
          lit "&end=" ++ encodeURIComponent e) true := by
    intro s e hs he hs0 he0
    subst hs he
    simp [loadRange, truthy, orEmpty, hs0, he0]
  have hinvalid : (¬ ∃ s e : JsString, start = some s ∧ endDate = some e ∧ s ≠ [] ∧ e ≠ []) →
      loadRange h p start endDate =
        { p with toast := some (lit "Pick both start and end dates") } := by
    intro hno
    have hor : (!truthy start || !truthy endDate) = true := by
      cases start with
      | none => simp [truthy]
      | some s =>
        cases endDate with
        | none => simp [truthy]
        | some e =>
          by_cases hs0 : s = []
          · simp [truthy, hs0]
          · by_cases he0 : e = []
            · simp [truthy, he0]
            · exact absurd ⟨s, e, rfl, rfl, hs0, he0⟩ hno
    simp [loadRange, hor, toast]
  refine ⟨?_, ?_, ?_⟩
  · constructor
    · intro hne
      by_contra hno
      rw [hinvalid hno] at hne
      exact hne rfl
    · rintro ⟨s, e, hs, he, hs0, he0⟩
      rw [hvalid s e hs he hs0 he0, load_requests]
      simp
  · intro hno
    rw [hinvalid hno]
    exact ⟨rfl, rfl, rfl⟩
  · intro s e hs he hs0 he0
    rw [hvalid s e hs he hs0 he0]
    exact ⟨rfl, load_requests _ _ _ _⟩

theorem trim_of_falsy (userId : JsString) (hu : truthy (some userId) = false) :
    trim userId = [] := by
  cases userId with
  | nil => rfl
  | cons c s => simp [truthy] at hu

/-- An input is accepted when, trimmed, it is non-empty and `parseInt` reads a
number from it; with a non-empty base endpoint the result is `load` on the base
endpoint, `/`, and the encoded trimmed input. -/
theorem loadByUserId_accept (h : Host) (p : Page) (userId base : JsString)
    (hne : trim userId ≠ []) (hp : parseInt (trim userId) ≠ none)
    (hb : p.endpoint = some base) (hb0 : base ≠ []) :
    loadByUserId h p userId =
      load h p (base ++ lit "/" ++ encodeURIComponent (trim userId)) true := by
  have hu : truthy (some userId) = true := by
    cases hu : truthy (some userId)
    · exact absurd (trim_of_falsy userId hu) hne
    · rfl
  have ht : truthy (some (trim userId)) = true := by simp [truthy, hne]
  have hn : isNaN (parseInt (trim userId)) = false := by
    cases hq : parseInt (trim userId) with
    | none => exact absurd hq hp
    | some v => rfl
  have hbt : truthy (some base) = true := by simp [truthy, hb0]
  simp [loadByUserId, hu, ht, hn, hb, hbt, orEmpty]

/-- An input is rejected with the validation notification, and nothing else
happens, when, trimmed, it is empty or `parseInt` reads no number from it. -/
theorem loadByUserId_reject (h : Host) (p : Page) (userId : JsString)
    (hbad : trim userId = [] ∨ parseInt (trim userId) = none) :
    loadByUserId h p userId =
      { p with toast := some (lit "Please enter a valid User ID (number).") } := by
  cases hu : truthy (some userId)
  · have hf : truthy (some ([] : JsString)) = false := rfl
    simp [loadByUserId, hu, hf, toast]
  · rcases hbad with h0 | hq
    · have hf : truthy (some ([] : JsString)) = false := rfl
      simp [loadByUserId, hu, h0, hf, toast]
    · simp [loadByUserId, hu, hq, isNaN, toast]

/-- With an accepted input and no base endpoint (absent or empty), only the
configuration-error notification is shown. -/
theorem loadByUserId_no_endpoint (h : Host) (p : Page) (userId : JsString)
    (hne : trim userId ≠ []) (hp : parseInt (trim userId) ≠ none)
    (hb : p.endpoint = none ∨ p.endpoint = some []) :
    loadByUserId h p userId =
      { p with toast := some (lit "Configuration error: Missing endpoint data attribute.") } := by
  have hu : truthy (some userId) = true := by
    cases hu : truthy (some userId)
    · exact absurd (trim_of_falsy userId hu) hne
    · rfl
  have ht : truthy (some (trim userId)) = true := by simp [truthy, hne]
  have hn : isNaN (parseInt (trim userId)) = false := by
    cases hq : parseInt (trim userId) with
    | none => exact absurd hq hp
    | some v => rfl
  have hbt : truthy p.endpoint = false := by
    rcases hb with hb | hb <;> simp [hb, truthy]
  simp [loadByUserId, hu, ht, hn, hbt, toast]

/-- C6 (the code at the failing input): the input `12.5`, which is not an integer
numeral, is accepted, because `parseInt` reads its leading digits and ignores the
rest: no validation notification, and one request, to
`/api/transactions/user/12.5`. The same holds for `42abc`. The inputs `abc`, the
empty string and white space only are rejected without a request. -/
theorem loadByUserId_accepts_non_integer :
    parseInt (lit "12.5") = some 12 ∧
    (loadByUserId sampleHost emptyPage (lit "12.5")).requests =
      [lit "/api/transactions/user/12.5"] ∧
    (loadByUserId sampleHost emptyPage (lit "12.5")).toast =
      some (lit "Loaded 2 transactions") ∧
    (loadByUserId sampleHost emptyPage (lit "42abc")).requests =
      [lit "/api/transactions/user/42abc"] ∧
    loadByUserId sampleHost emptyPage (lit "abc") =
      { emptyPage with toast := some (lit "Please enter a valid User ID (number).") } ∧
    loadByUserId sampleHost emptyPage (lit "") =
      { emptyPage with toast := some (lit "Please enter a valid User ID (number).") } ∧
    loadByUserId sampleHost emptyPage (lit "  \t ") =
      { emptyPage with toast := some (lit "Please enter a valid User ID (number).") } := by
  have a1 : loadByUserId sampleHost emptyPage (lit "12.5") =
      load sampleHost emptyPage (lit "/api/transactions/user/12.5") true :=
    loadByUserId_accept sampleHost emptyPage (lit "12.5") (lit "/api/transactions/user")
      (by decide) (by decide) rfl (by decide)
  have a2 : loadByUserId sampleHost emptyPage (lit "42abc") =
      load sampleHost emptyPage (lit "/api/transactions/user/42abc") true :=
    loadByUserId_accept sampleHost emptyPage (lit "42abc") (lit "/api/transactions/user")
      (by decide) (by decide) rfl (by decide)
  refine ⟨by decide, ?_, ?_, ?_, ?_, ?_, ?_⟩
  · rw [a1, load_requests]; rfl
  · rw [a1]
    simp [load, sampleHost, responseOk, toast, renderKpis, renderTable]
    decide
  · rw [a2, load_requests]; rfl
  · exact loadByUserId_reject _ _ _ (Or.inr (by decide))
  · exact loadByUserId_reject _ _ _ (Or.inl (by decide))
  · exact loadByUserId_reject _ _ _ (Or.inl (by decide))
end Ledger
